import Mathlib

/-!
# Recommendation & Ranking Engine — verification development

Shallow embedding of the deterministic engine of the Github-Readme-Generator
repository: the repository ranker (`src/lib/repoRanker.ts`), the fact
normalizer (`src/lib/githubInspector.ts`), the suggestion generator
(`src/lib/suggestionsEngine.ts`), the heuristic recommendation engine
(`src/lib/heuristicsEngine.ts`, shipped inside `markdownFormatter.ts`), and
the apply/merge resolver (`applySuggestion` / `applyHeuristicRecommendation`
in `src/app/page.tsx`).

Modelling conventions:
* JavaScript numbers that the code only ever uses as non-negative integers
  (star counts, sizes, repo counts) are `Nat`; the fork ratio, compared
  against `0.7`, is `Rat`; epoch milliseconds are `Int`.
* `Array.prototype.sort` (stable since ES2019) with a consistent comparator
  `c` is `List.mergeSort` with the boolean relation `le a b ↔ c(a,b) ≤ 0`.
* `String.prototype.localeCompare` on the ISO-8601 ASCII timestamps handled
  here agrees with code-point lexicographic order, which is the Lean `≤` on
  `String` (the source itself relies on "ISO string comparison works for
  dates").
* A TypeScript optional field is `Option`; JavaScript truthiness is made
  explicit where the code branches on it (`!role`, `value && …`,
  `description || …`).
* The dynamically typed `value: any` of a suggested action ranges over the
  values the program actually constructs and stores there: booleans,
  strings, and string arrays (`ActionValue` below).  Fields that the
  resolver can overwrite with such a value (`tone`, the elements of
  `techStack`, and the dynamically added `goal` property) are typed
  `ActionValue` so that every reachable runtime state is representable.
-/

set_option maxHeartbeats 1000000

namespace ReadmeGen

/-- Raw repository record fetched from GitHub (`GitHubRepoRaw` in
`src/types/index.ts`).  `description`/`language` are nullable in TS. -/
structure GitHubRepoRaw where
  name : String
  description : Option String
  language : Option String
  stargazers_count : Nat
  updated_at : String
  fork : Bool
  archived : Bool
  size : Nat
deriving DecidableEq, Repr

/-- Normalized repository record (`GitHubRepoNormalized` in
`src/types/index.ts`). -/
structure GitHubRepoNormalized where
  name : String
  description : String
  language : String
  stars : Nat
  lastUpdated : String
deriving DecidableEq, Repr

/-- The `normalizeRepo` from `src/lib/githubInspector.ts`:
`description` falls back to the empty string and `language` to the
sentinel `Unknown` (JS falsy test covers `null` and the empty string). -/
def normalizeRepo (raw : GitHubRepoRaw) : GitHubRepoNormalized :=
  { name := raw.name
    description := match raw.description with
      | none => ""
      | some d => if d = "" then "" else d
    language := match raw.language with
      | none => "Unknown"
      | some l => if l = "" then "Unknown" else l
    stars := raw.stargazers_count
    lastUpdated := raw.updated_at }

/-- The filter predicate of `filterAndRankRepos` (`src/lib/repoRanker.ts`):
keep a record iff it is not a fork, not archived, and not empty. -/
def keepRepo (r : GitHubRepoRaw) : Bool :=
  !r.fork && !r.archived && r.size != 0

/-- The comparator of `filterAndRankRepos`, rephrased as the boolean
"may stay before" relation of a stable sort: `repoLE a b` iff the JS
comparator returns `≤ 0` on `(a, b)`.  Primary key: stars descending;
tie-break: `updated_at` descending by string comparison. -/
def repoLE (a b : GitHubRepoRaw) : Bool :=
  if a.stargazers_count = b.stargazers_count then
    decide (b.updated_at ≤ a.updated_at)
  else
    decide (b.stargazers_count < a.stargazers_count)

/-- The `filterAndRankRepos` from `src/lib/repoRanker.ts`: filter, stable sort
by the comparator, normalize. -/
def filterAndRankRepos (rawRepos : List GitHubRepoRaw) : List GitHubRepoNormalized :=
  (((rawRepos.filter keepRepo).mergeSort repoLE).map normalizeRepo)

/-- First-occurrence deduplication with an accumulator of already-seen
elements: the order-preserving semantics of iterating a JS `Set`. -/
def jsSetAux {α : Type} [DecidableEq α] (seen : List α) : List α → List α
  | [] => []
  | x :: xs => if x ∈ seen then jsSetAux seen xs else x :: jsSetAux (x :: seen) xs

/-- The `Array.from(new Set(xs))`: drop duplicates, keeping the first
occurrence of each element in order. -/
def arrayFromSet {α : Type} [DecidableEq α] (xs : List α) : List α :=
  jsSetAux [] xs

/-- The `extractLanguages` from `src/lib/repoRanker.ts`: the distinct primary
languages (in first-seen order, via a JS `Set`), skipping falsy (empty)
and `Unknown` languages. -/
def extractLanguages (repos : List GitHubRepoNormalized) : List String :=
  arrayFromSet ((repos.map (·.language)).filter (fun l => l ≠ "" && l ≠ "Unknown"))

/-! ## Time: `new Date(iso).getTime()` and `Date.now()`

`generateSuggestions` and `hasRecentActivity` snapshot `Date.now()` once at
the top of the invocation and compare it against the parsed `updated_at`
timestamps.  The snapshot becomes an explicit `now : Int` (epoch
milliseconds) parameter of the embedded functions; `new Date(s).getTime()`
on the ISO-8601 UTC strings produced by the GitHub API
(`YYYY-MM-DDTHH:MM:SSZ`) is the exact parser below, and yields `none`
(JS `NaN`, under which every recency comparison is false) on any other
shape. -/

/-- Value of a decimal digit character, `none` otherwise. -/
def digitVal (c : Char) : Option Nat :=
  if c.isDigit then some (c.toNat - 48) else none

/-- Two-digit decimal number. -/
def twoDigits (a b : Char) : Option Nat := do
  let x ← digitVal a
  let y ← digitVal b
  some (10 * x + y)

/-- Days from 1970-01-01 to year `y`, month `m`, day `d` of the proleptic
Gregorian calendar (the civil-from-days algorithm used by every epoch
conversion, matching ECMAScript `MakeDay`). -/
def daysFromCivil (y m d : Int) : Int :=
  let y' : Int := if m ≤ 2 then y - 1 else y
  let era : Int := (if 0 ≤ y' then y' else y' - 399) / 400
  let yoe : Int := y' - era * 400
  let mp : Int := (m + 9) % 12
  let doy : Int := (153 * mp + 2) / 5 + d - 1
  let doe : Int := yoe * 365 + yoe / 4 - yoe / 100 + doy
  era * 146097 + doe - 719468

/-- Days in a month of the Gregorian calendar. -/
def daysInMonth (y m : Int) : Int :=
  if m = 2 then
    if y % 4 = 0 ∧ (y % 100 ≠ 0 ∨ y % 400 = 0) then 29 else 28
  else if m = 4 ∨ m = 6 ∨ m = 9 ∨ m = 11 then 30
  else 31

/-- The `new Date(s).getTime()` for the `YYYY-MM-DDTHH:MM:SSZ` timestamps the
GitHub API emits: epoch milliseconds, or `none` (`NaN`) when the string
does not have that shape or a field is out of range. -/
def parseISOms (s : String) : Option Int :=
  match s.toList with
  | [y1, y2, y3, y4, '-', m1, m2, '-', d1, d2, 'T',
     h1, h2, ':', mi1, mi2, ':', s1, s2, 'Z'] => do
    let yh ← twoDigits y1 y2
    let yl ← twoDigits y3 y4
    let mo ← twoDigits m1 m2
    let d ← twoDigits d1 d2
    let h ← twoDigits h1 h2
    let mi ← twoDigits mi1 mi2
    let sec ← twoDigits s1 s2
    let y : Int := 100 * yh + yl
    if 1 ≤ mo ∧ mo ≤ 12 ∧ 1 ≤ d ∧ (d : Int) ≤ daysInMonth y mo ∧
        h ≤ 23 ∧ mi ≤ 59 ∧ sec ≤ 59 then
      some ((daysFromCivil y mo d * 86400 + h * 3600 + mi * 60 + sec) * 1000)
    else
      none
  | _ => none

/-- The `RECENT_DAYS_THRESHOLD` (180 days) in milliseconds.  The JS test
`(now - updated) / 86400000 ≤ 180` on exact integers is equivalent to
`now - updated ≤ 15552000000` (the quotient changes by ≥ 1e-8 per
millisecond, far above double rounding error near 180). -/
def RECENT_MS : Int := 180 * 86400000

/-- The recency test shared by `generateSuggestions` (step 2) and
`hasRecentActivity`: parse `lastUpdated`, compare against the `now`
snapshot; an unparsable date (JS `NaN`) is never recent. -/
def isRecentRepo (now : Int) (r : GitHubRepoNormalized) : Bool :=
  match parseISOms r.lastUpdated with
  | none => false
  | some t => decide (now - t ≤ RECENT_MS)

/-- The `hasRecentActivity` from the heuristics module: some repo was updated
within the recency window of the `Date.now()` snapshot `now`. -/
def hasRecentActivity (now : Int) (repos : List GitHubRepoNormalized) : Bool :=
  repos.any (isRecentRepo now)

/-! ## Suggestions (`src/lib/suggestionsEngine.ts`) -/

/-- A featured-project entry (`{ name, impact }`). -/
structure FeaturedProject where
  name : String
  impact : String
deriving DecidableEq, Repr

/-- The `Suggestion.type` tag. -/
inductive SuggestionType where
  | repo
  | section
  | warning
deriving DecidableEq, Repr

/-- The `Suggestion.data` payload: optional fields of the TS interface. -/
structure SuggestionData where
  repos : Option (List GitHubRepoNormalized) := none
  languages : Option (List String) := none
  project : Option FeaturedProject := none
deriving DecidableEq, Repr

/-- Advisory `Suggestion` record from `src/types/index.ts`. -/
structure Suggestion where
  type : SuggestionType
  message : String
  data : Option SuggestionData := none
deriving DecidableEq, Repr

/-- The `TOP_REPOS_LIMIT` from `src/lib/suggestionsEngine.ts`. -/
def TOP_REPOS_LIMIT : Nat := 4

/-- The `generateSuggestions` from `src/lib/suggestionsEngine.ts`.  The
`const now = Date.now()` snapshot taken at the top of the function body is
the explicit `now` argument; the four rule blocks push onto `suggestions`
in order, rendered here as list concatenation. -/
def generateSuggestions (repos : List GitHubRepoNormalized)
    (languages : List String) (now : Int) : List Suggestion :=
  (if repos.length > 0 then
    [{ type := .repo
       message := "We recommend featuring these repositories: " ++
         String.intercalate ", " ((repos.take TOP_REPOS_LIMIT).map (·.name))
       data := some { repos := some (repos.take TOP_REPOS_LIMIT) } }]
  else
    [{ type := .warning
       message := "No public repositories found for this user." }])
  ++ (if repos.length > 0 ∧ (repos.filter (isRecentRepo now)).length = 0 then
    [{ type := .warning
       message := "Your profile has no recently active repositories (last 6 months)." }]
  else [])
  ++ (if languages.length > 0 then
    [{ type := .section
       message := "Primary languages detected: " ++ String.intercalate ", " languages
       data := some { languages := some languages } }]
  else [])
  ++ (repos.take TOP_REPOS_LIMIT).map (fun repo =>
    let impact : String :=
      if repo.description = "" then "A project on GitHub" else repo.description
    { type := .repo
      message := "Add \"" ++ repo.name ++ "\" to featured projects"
      data := some { project := some ⟨repo.name, impact⟩ } })

/-! ## Heuristic recommendations (`heuristicsEngine`, V2.1) -/

/-- A runtime value stored in the dynamically typed `value: any` of a
suggested action (the program only ever puts booleans, strings, and string
arrays there), and hence in any field the resolver can overwrite. -/
inductive ActionValue where
  | bool (b : Bool)
  | str (s : String)
  | strList (l : List String)
deriving DecidableEq, Repr

/-- JavaScript truthiness of an `ActionValue` (arrays are always truthy,
the empty string and `false` are falsy). -/
def ActionValue.truthy : ActionValue → Bool
  | .bool b => b
  | .str s => s ≠ ""
  | .strList _ => true

/-- The `suggestedAction.type`. -/
inductive ActionType where
  | enable
  | disable
  | change
deriving DecidableEq, Repr

/-- The `suggestedAction.target`. -/
inductive ActionTarget where
  | projects
  | techStack
  | goal
  | tone
  | whatIDo
  | connect
deriving DecidableEq, Repr

/-- The `HeuristicRecommendation.suggestedAction`. -/
structure SuggestedAction where
  type : ActionType
  target : ActionTarget
  value : Option ActionValue := none
deriving DecidableEq, Repr

/-- The `HeuristicRecommendation.recommendationType` tag. -/
inductive RecommendationType where
  | section
  | tone
  | warning
deriving DecidableEq, Repr

/-- Advisory `HeuristicRecommendation` record from `src/types/index.ts`. -/
structure HeuristicRecommendation where
  recommendationType : RecommendationType
  message : String
  explanation : String
  suggestedAction : Option SuggestedAction := none
deriving DecidableEq, Repr

/-- The section-visibility flags of `ReadmeInputs.sections`. -/
structure Sections where
  whatIDo : Bool
  techStack : Bool
  projects : Bool
  goal : Bool
  connect : Bool
deriving DecidableEq, Repr

/-- The `ReadmeInputs` (the ProfileIntent) from `src/types/index.ts`.  `tone`
and the elements of `techStack` are `ActionValue` because
`applyHeuristicRecommendation` can overwrite them with any action value;
`goalDyn` is the `goal` property that the goal branch of the resolver adds
dynamically (the declared interface only has `profileGoal`). -/
structure ReadmeInputs where
  name : String
  username : String
  careerStage : String
  role : String
  techStack : List ActionValue
  featuredProjects : List FeaturedProject
  profileGoal : String
  tone : ActionValue
  emojiPreference : String
  sections : Sections
  goalDyn : Option ActionValue := none
deriving DecidableEq, Repr

/-- The `HeuristicsInput.githubData` from `src/types/index.ts`. -/
structure GithubSignals where
  repoCount : Nat
  hasRecentActivity : Bool
  primaryLanguages : List String
  topRepos : List GitHubRepoNormalized
  totalStars : Nat
  forkRatio : Rat
deriving DecidableEq, Repr

/-- The `HeuristicsInput`: user inputs plus optional GitHub signals. -/
structure HeuristicsInput where
  userInputs : ReadmeInputs
  githubData : Option GithubSignals
deriving DecidableEq, Repr

/-- The `STRONG_REPO_STAR_THRESHOLD` from the heuristics module. -/
def STRONG_REPO_STAR_THRESHOLD : Nat := 5

/-- The `HIGH_STAR_THRESHOLD` from the heuristics module. -/
def HIGH_STAR_THRESHOLD : Nat := 50

/-- The `generateSectionRecommendations`: section-visibility rules, in push
order. -/
def generateSectionRecommendations (userInputs : ReadmeInputs)
    (githubData : Option GithubSignals) : List HeuristicRecommendation :=
  match githubData with
  | some g =>
    (if (g.repoCount = 0 ∨ (¬g.hasRecentActivity ∧ g.topRepos.length = 0)) ∧
        userInputs.sections.projects then
      [{ recommendationType := .section
         message := "Consider hiding the Featured Projects section"
         explanation := "Your GitHub profile shows no active repositories. A projects section without content may weaken your profile."
         suggestedAction := some { type := .disable, target := .projects, value := some (.bool false) } }]
    else [])
    ++ (let strongCount := (g.topRepos.filter (fun r => STRONG_REPO_STAR_THRESHOLD ≤ r.stars)).length
      if 3 ≤ strongCount ∧ ¬userInputs.sections.projects then
        [{ recommendationType := .section
           message := "Consider enabling the Featured Projects section"
           explanation := "You have " ++ (toString strongCount ++ (" repositories with " ++
             (toString STRONG_REPO_STAR_THRESHOLD ++
             "+ stars. Showcasing these could strengthen your profile.")))
           suggestedAction := some { type := .enable, target := .projects, value := some (.bool true) } }]
      else [])
    ++ (if g.primaryLanguages.length = 0 ∧ ¬userInputs.sections.techStack then
      [{ recommendationType := .section
         message := "Consider adding a Tech Stack section manually"
         explanation := "No programming languages were detected from your repositories. Adding your skills manually will help visitors understand your expertise."
         suggestedAction := some { type := .enable, target := .techStack, value := some (.bool true) } }]
    else [])
    ++ (if g.primaryLanguages.length > 0 ∧ userInputs.techStack.length = 0 then
      let populate : SuggestedAction :=
        { type := .change, target := .techStack
          value := some (.strList (g.primaryLanguages.take 5)) }
      [{ recommendationType := .section
         message := "Your tech stack is empty but we detected languages"
         explanation := "Languages like " ++
           (String.intercalate ", " (g.primaryLanguages.take 3) ++
           " were found in your repos. Consider adding them to your tech stack.")
         suggestedAction := some populate }]
    else [])
  | none =>
    (if userInputs.sections.projects ∧ userInputs.featuredProjects.length = 0 then
      [{ recommendationType := .section
         message := "Add featured projects or hide the section"
         explanation := "The Featured Projects section is enabled but empty. Either add projects manually or consider hiding this section."
         suggestedAction := some { type := .disable, target := .projects, value := some (.bool false) } }]
    else [])
    ++ (if userInputs.sections.techStack ∧ userInputs.techStack.length = 0 then
      [{ recommendationType := .section
         message := "Add technologies to your tech stack"
         explanation := "The Tech Stack section is enabled but empty. Add your skills to help visitors understand your expertise." }]
    else [])

/-- The `generateToneRecommendations`: tone rules, in push order. -/
def generateToneRecommendations (userInputs : ReadmeInputs)
    (githubData : Option GithubSignals) : List HeuristicRecommendation :=
  (if userInputs.careerStage = "student" ∧
      Option.all (fun g => !g.hasRecentActivity) githubData = true ∧
      userInputs.tone ≠ .str "friendly" then
    [{ recommendationType := .tone
       message := "Consider a friendly, learning-focused tone"
       explanation := "As a student with limited visible activity, a friendly tone emphasizing learning and growth can be more authentic and engaging."
       suggestedAction := some { type := .change, target := .tone, value := some (.str "friendly") } }]
  else [])
  ++ (match githubData with
    | some g =>
      if HIGH_STAR_THRESHOLD ≤ g.totalStars ∧ g.hasRecentActivity ∧
          (userInputs.tone = .str "minimal" ∨ userInputs.tone = .str "friendly") then
        [{ recommendationType := .tone
           message := "Consider a more confident tone"
           explanation := "Your projects have " ++ (toString g.totalStars ++
             " total stars and recent activity. A confident tone can better reflect your impact.")
           suggestedAction := some { type := .change, target := .tone, value := some (.str "confident") } }]
      else []
    | none => [])
  ++ (if userInputs.profileGoal = "open-source" ∧ userInputs.tone = .str "minimal" then
    [{ recommendationType := .tone
       message := "Consider a friendlier tone for open-source"
       explanation := "Open-source contributions benefit from an approachable, community-focused tone that invites collaboration."
       suggestedAction := some { type := .change, target := .tone, value := some (.str "friendly") } }]
  else [])
  ++ (if userInputs.careerStage = "founder" ∧ userInputs.tone ≠ .str "founder" then
    [{ recommendationType := .tone
       message := "Consider using the founder tone"
       explanation := "The founder tone is designed to emphasize vision and leadership, which aligns with your career stage."
       suggestedAction := some { type := .change, target := .tone, value := some (.str "founder") } }]
  else [])
  ++ (if userInputs.profileGoal = "job" ∧ userInputs.careerStage = "professional" ∧
      userInputs.tone ≠ .str "confident" then
    [{ recommendationType := .tone
       message := "Consider a confident tone for job searching"
       explanation := "When looking for roles, a confident tone helps communicate your value proposition clearly to potential employers."
       suggestedAction := some { type := .change, target := .tone, value := some (.str "confident") } }]
  else [])

/-- The `generateWarnings`: warning rules, in push order. -/
def generateWarnings (userInputs : ReadmeInputs)
    (githubData : Option GithubSignals) : List HeuristicRecommendation :=
  (match githubData with
  | some g =>
    (if ¬g.hasRecentActivity ∧ g.repoCount > 0 then
      [{ recommendationType := .warning
         message := "Your profile shows limited recent activity"
         explanation := "Most of your repositories haven\x27t been updated in the last 6 months. Consider focusing your bio on skills and experience rather than active projects." }]
    else [])
    ++ (if (7 : Rat) / 10 < g.forkRatio ∧ g.repoCount > 2 then
      [{ recommendationType := .warning
         message := "Most of your repositories appear to be forks"
         explanation := "Featuring forked repositories may not showcase your original work effectively. Consider highlighting your own projects instead." }]
    else [])
    ++ (if g.totalStars = 0 ∧ g.repoCount > 0 then
      [{ recommendationType := .warning
         message := "Your repositories haven\x27t received stars yet"
         explanation := "This is normal for newer profiles. Focus on describing the problems your projects solve rather than metrics." }]
    else [])
    ++ (if g.repoCount > 0 ∧ g.repoCount < 3 then
      [{ recommendationType := .warning
         message := "You have a small number of public repositories"
         explanation := "With fewer projects to showcase, consider writing detailed descriptions for each one to maximize their impact." }]
    else [])
  | none => [])
  ++ (if userInputs.role = "" ∨ userInputs.role.trim = "" then
    [{ recommendationType := .warning
       message := "Your primary role is not specified"
       explanation := "Adding a clear role helps visitors quickly understand what you do." }]
  else [])
  ++ (if userInputs.name = "Your Name" ∨ userInputs.name.trim = "" then
    [{ recommendationType := .warning
       message := "Remember to add your real name"
       explanation := "A personalized name makes your profile more authentic and memorable." }]
  else [])

/-- The `generateHeuristicRecommendations`: concatenation of the three rule
families (section, tone, warning), in that order. -/
def generateHeuristicRecommendations (input : HeuristicsInput) : List HeuristicRecommendation :=
  generateSectionRecommendations input.userInputs input.githubData
  ++ generateToneRecommendations input.userInputs input.githubData
  ++ generateWarnings input.userInputs input.githubData

/-! ## Apply/merge resolver (`src/app/page.tsx`)

`applySuggestion` and `applyHeuristicRecommendation` call `setInputs` with
pure state updaters; the embedding is the resulting state transformation on
`ReadmeInputs` (list bookkeeping of the displayed suggestion cards and the
`alert` calls do not touch the intent). -/

/-- The state update of `applySuggestion` in `src/app/page.tsx`: a project
payload replaces any same-named featured project and is appended; a
languages payload is merged into the tech stack through a JS `Set`.  Both
`if` blocks of the source run independently. -/
def applySuggestion (suggestion : Suggestion) (s : ReadmeInputs) : ReadmeInputs :=
  let s1 : ReadmeInputs :=
    match suggestion.data.bind (·.project) with
    | some project =>
      { s with featuredProjects :=
          s.featuredProjects.filter (fun p => p.name ≠ project.name) ++ [project] }
    | none => s
  match suggestion.data.bind (·.languages) with
  | some langs =>
    { s1 with techStack := arrayFromSet (s1.techStack ++ langs.map ActionValue.str) }
  | none => s1

/-- The `Array.isArray(value) ? value : [value]` for a spread into the tech
stack (the elements of a spread string array are strings). -/
def spreadValue : ActionValue → List ActionValue
  | .strList l => l.map ActionValue.str
  | v => [v]

/-- The state update of `applyHeuristicRecommendation` in
`src/app/page.tsx`: a truthy-valued `change` on `tone` overwrites `tone`; a
truthy-valued `change` on `goal` writes the dynamic `goal` property; a
truthy-valued `enable` on `techStack` unions the value into the tech stack;
every other shape (including `enable`/`disable` on `projects`) only raises
an `alert` and leaves the state unchanged. -/
def applyHeuristicRecommendation (rec : HeuristicRecommendation)
    (s : ReadmeInputs) : ReadmeInputs :=
  match rec.suggestedAction with
  | none => s
  | some a =>
    match a.value with
    | none => s
    | some v =>
      if a.target = .tone ∧ a.type = .change ∧ v.truthy then
        { s with tone := v }
      else if a.target = .goal ∧ a.type = .change ∧ v.truthy then
        { s with goalDyn := some v }
      else if a.target = .techStack ∧ a.type = .enable ∧ v.truthy then
        { s with techStack := arrayFromSet (s.techStack ++ spreadValue v) }
      else s

/-- The `defaultInputs` from `src/app/page.tsx`: the initial ProfileIntent
state. -/
def defaultInputs : ReadmeInputs :=
  { name := "Your Name"
    username := "your-github-username"
    careerStage := "professional"
    role := "Full-stack developer"
    techStack := [.str "TypeScript", .str "React", .str "Node.js"]
    featuredProjects := [⟨"ExampleProject", "Small one-line description of impact"⟩]
    profileGoal := "job"
    tone := .str "friendly"
    emojiPreference := "light"
    sections := ⟨true, true, true, true, true⟩ }

/-! ## Helper lemmas -/

/-- A string with a non-empty prefix is non-empty. -/
theorem append_ne_empty_of_left (s t : String) (h : s.length ≠ 0) : s ++ t ≠ "" := by
  intro hc
  have hl := congrArg String.length hc
  rw [String.length_append] at hl
  simp only [String.length_empty] at hl
  omega

/-- Membership in a conditional list with empty alternative. -/
theorem mem_of_mem_ite_nil {α : Type} {c : Prop} [Decidable c] {l : List α} {a : α}
    (h : a ∈ if c then l else []) : a ∈ l := by
  by_cases hc : c
  · simpa [hc] using h
  · simp [hc] at h

/-- The `jsSetAux` only consults the seen accumulator through membership. -/
theorem jsSetAux_congr {α : Type} [DecidableEq α] {s t : List α}
    (hst : ∀ x, x ∈ s ↔ x ∈ t) : ∀ xs : List α, jsSetAux s xs = jsSetAux t xs := by
  intro xs
  induction xs generalizing s t with
  | nil => rfl
  | cons x xs ih =>
    simp only [jsSetAux]
    by_cases hx : x ∈ s
    · rw [if_pos hx, if_pos ((hst x).mp hx)]
      exact ih hst
    · rw [if_neg hx, if_neg (fun hc => hx ((hst x).mpr hc))]
      refine congrArg (x :: ·) (ih ?_)
      intro y
      simp only [List.mem_cons]
      exact or_congr Iff.rfl (hst y)

/-- Splitting `jsSetAux` across an append: the first block is deduplicated
against the original accumulator, the second one also against the first
elements of the first block. -/
theorem jsSetAux_append {α : Type} [DecidableEq α] :
    ∀ (xs ys s : List α), jsSetAux s (xs ++ ys) = jsSetAux s xs ++ jsSetAux (xs ++ s) ys := by
  intro xs
  induction xs with
  | nil =>
    intro ys s
    simp [jsSetAux]
  | cons x xs ih =>
    intro ys s
    show (if x ∈ s then jsSetAux s (xs ++ ys) else x :: jsSetAux (x :: s) (xs ++ ys))
      = (if x ∈ s then jsSetAux s xs else x :: jsSetAux (x :: s) xs)
        ++ jsSetAux (x :: (xs ++ s)) ys
    by_cases hx : x ∈ s
    · rw [if_pos hx, if_pos hx, ih]
      refine congrArg (jsSetAux s xs ++ ·) (jsSetAux_congr ?_ ys)
      intro y
      simp only [List.mem_append, List.mem_cons]
      constructor
      · exact Or.inr
      · rintro (rfl | h)
        · exact Or.inr hx
        · exact h
    · rw [if_neg hx, if_neg hx, ih, List.cons_append]
      refine congrArg (fun l => x :: (jsSetAux (x :: s) xs ++ l)) (jsSetAux_congr ?_ ys)
      intro y
      simp only [List.mem_append, List.mem_cons]
      tauto

/-- Membership in `jsSetAux`. -/
theorem mem_jsSetAux {α : Type} [DecidableEq α] {a : α} :
    ∀ {s xs : List α}, a ∈ jsSetAux s xs ↔ a ∈ xs ∧ a ∉ s := by
  intro s xs
  induction xs generalizing s with
  | nil => simp [jsSetAux]
  | cons x xs ih =>
    simp only [jsSetAux]
    by_cases hx : x ∈ s
    · rw [if_pos hx, ih, List.mem_cons]
      constructor
      · rintro ⟨h1, h2⟩
        exact ⟨Or.inr h1, h2⟩
      · rintro ⟨rfl | h1, h2⟩
        · exact absurd hx h2
        · exact ⟨h1, h2⟩
    · rw [if_neg hx]
      simp only [List.mem_cons, ih, not_or]
      constructor
      · rintro (rfl | ⟨h1, h2, h3⟩)
        · exact ⟨Or.inl rfl, hx⟩
        · exact ⟨Or.inr h1, h3⟩
      · rintro ⟨rfl | h1, h2⟩
        · exact Or.inl rfl
        · by_cases hax : a = x
          · exact Or.inl hax
          · exact Or.inr ⟨h1, hax, h2⟩

/-- The `jsSetAux` produces no duplicates. -/
theorem nodup_jsSetAux {α : Type} [DecidableEq α] :
    ∀ (s xs : List α), (jsSetAux s xs).Nodup := by
  intro s xs
  induction xs generalizing s with
  | nil => simp [jsSetAux]
  | cons x xs ih =>
    simp only [jsSetAux]
    by_cases hx : x ∈ s
    · rw [if_pos hx]; exact ih s
    · rw [if_neg hx]
      refine List.Nodup.cons (fun hc => ?_) (ih (x :: s))
      exact (mem_jsSetAux.mp hc).2 (List.mem_cons_self x s)

/-- The `jsSetAux` drops everything already seen. -/
theorem jsSetAux_eq_nil {α : Type} [DecidableEq α] {s xs : List α}
    (h : ∀ x ∈ xs, x ∈ s) : jsSetAux s xs = [] := by
  induction xs with
  | nil => rfl
  | cons x xs ih =>
    simp only [jsSetAux, if_pos (h x (List.mem_cons_self x xs))]
    exact ih (fun y hy => h y (List.mem_cons_of_mem x hy))

/-- The `jsSetAux` keeps a duplicate-free list disjoint from the accumulator
unchanged. -/
theorem jsSetAux_of_nodup {α : Type} [DecidableEq α] {s xs : List α}
    (hnd : xs.Nodup) (hdis : ∀ x ∈ xs, x ∉ s) : jsSetAux s xs = xs := by
  induction xs generalizing s with
  | nil => rfl
  | cons x xs ih =>
    simp only [jsSetAux, if_neg (hdis x (List.mem_cons_self x xs))]
    refine congrArg (x :: ·) (ih (List.Nodup.of_cons hnd) ?_)
    intro y hy
    simp only [List.mem_cons]
    rintro (rfl | hc)
    · exact (List.nodup_cons.mp hnd).1 hy
    · exact hdis y (List.mem_cons_of_mem x hy) hc

/-- The `jsSetAux` with accumulator `s` is first-occurrence deduplication
followed by removal of the already-seen elements. -/
theorem jsSetAux_eq_filter {α : Type} [DecidableEq α] :
    ∀ (xs s : List α), jsSetAux s xs = (arrayFromSet xs).filter (fun x => !decide (x ∈ s)) := by
  intro xs
  induction xs with
  | nil => intro s; rfl
  | cons x xs ih =>
    intro s
    show (if x ∈ s then jsSetAux s xs else x :: jsSetAux (x :: s) xs)
      = List.filter (fun y => !decide (y ∈ s))
          (if x ∈ ([] : List α) then jsSetAux [] xs else x :: jsSetAux [x] xs)
    rw [if_neg (List.not_mem_nil x), List.filter_cons]
    by_cases hx : x ∈ s
    · rw [if_pos hx, if_neg (by simp [hx])]
      rw [ih s, ih [x], List.filter_filter]
      refine (List.filter_congr (fun y _ => ?_)).symm
      by_cases hys : y ∈ s
      · simp [hys]
      · have hyx : ¬y = x := fun hc => hys (hc ▸ hx)
        simp [hys, hyx]
    · rw [if_neg hx, if_pos (by simp [hx])]
      refine congrArg (x :: ·) ?_
      rw [ih (x :: s), ih [x], List.filter_filter]
      refine (List.filter_congr (fun y _ => ?_)).symm
      by_cases hyx : y = x
      · simp [hyx]
      · by_cases hys : y ∈ s <;> simp [hyx, hys]

/-- Idempotence of re-unioning the same block: deduplicating
`dedup (A ++ B) ++ B` changes nothing. -/
theorem arrayFromSet_union_idem {α : Type} [DecidableEq α] (A B : List α) :
    arrayFromSet (arrayFromSet (A ++ B) ++ B) = arrayFromSet (A ++ B) := by
  have hC : arrayFromSet (A ++ B) = jsSetAux [] (A ++ B) := rfl
  rw [arrayFromSet, jsSetAux_append]
  have h1 : jsSetAux ([] : List α) (arrayFromSet (A ++ B)) = arrayFromSet (A ++ B) :=
    jsSetAux_of_nodup (nodup_jsSetAux [] (A ++ B)) (by simp)
  have h2 : jsSetAux (arrayFromSet (A ++ B) ++ []) B = [] := by
    refine jsSetAux_eq_nil (fun x hx => ?_)
    rw [List.append_nil, hC, mem_jsSetAux]
    exact ⟨List.mem_append_right A hx, List.not_mem_nil x⟩
  rw [h1, h2, List.append_nil]

/-- Normalization keeps the popularity count. -/
@[simp] theorem normalizeRepo_stars (r : GitHubRepoRaw) :
    (normalizeRepo r).stars = r.stargazers_count := rfl

/-- Normalization keeps the last-modified timestamp. -/
@[simp] theorem normalizeRepo_lastUpdated (r : GitHubRepoRaw) :
    (normalizeRepo r).lastUpdated = r.updated_at := rfl

/-- The ranking comparator is transitive. -/
theorem repoLE_trans (a b c : GitHubRepoRaw)
    (h1 : repoLE a b = true) (h2 : repoLE b c = true) : repoLE a c = true := by
  unfold repoLE at h1 h2 ⊢
  by_cases hab : a.stargazers_count = b.stargazers_count <;>
    by_cases hbc : b.stargazers_count = c.stargazers_count
  · rw [if_pos hab] at h1
    rw [if_pos hbc] at h2
    rw [if_pos (hab.trans hbc)]
    exact decide_eq_true (le_trans (of_decide_eq_true h2) (of_decide_eq_true h1))
  · rw [if_neg hbc] at h2
    have h2' := of_decide_eq_true h2
    rw [if_neg (fun hc : a.stargazers_count = c.stargazers_count => by omega)]
    exact decide_eq_true (by omega)
  · rw [if_neg hab] at h1
    have h1' := of_decide_eq_true h1
    rw [if_neg (fun hc : a.stargazers_count = c.stargazers_count => by omega)]
    exact decide_eq_true (by omega)
  · rw [if_neg hab] at h1
    rw [if_neg hbc] at h2
    have h1' := of_decide_eq_true h1
    have h2' := of_decide_eq_true h2
    rw [if_neg (fun hc : a.stargazers_count = c.stargazers_count => by omega)]
    exact decide_eq_true (by omega)

/-- The ranking comparator is total. -/
theorem repoLE_total (a b : GitHubRepoRaw) : (repoLE a b || repoLE b a) = true := by
  unfold repoLE
  by_cases hab : a.stargazers_count = b.stargazers_count
  · rw [if_pos hab, if_pos hab.symm]
    rcases le_total b.updated_at a.updated_at with h | h
    · rw [decide_eq_true h, Bool.true_or]
    · rw [decide_eq_true h, Bool.or_true]
  · rw [if_neg hab, if_neg (Ne.symm hab)]
    rcases Nat.lt_or_ge b.stargazers_count a.stargazers_count with h | h
    · rw [decide_eq_true h, Bool.true_or]
    · have : a.stargazers_count < b.stargazers_count := by omega
      rw [decide_eq_true this, Bool.or_true]

/-! ## Claim theorems -/

/-- C1: for every input list, the records the Repository Ranker keeps appear
in the output in an order satisfying popularity (stars) descending, then
last-modified timestamp descending under string comparison; and records tied
on both keys retain their relative input order (the sort is stable): for
every key pair, the key-class of the filtered input, normalized, is exactly
the key-class of the output, in the same order. -/
theorem C1_ranker_order_and_stability (rawRepos : List GitHubRepoRaw) :
    (filterAndRankRepos rawRepos).Pairwise (fun a b =>
      b.stars < a.stars ∨ (a.stars = b.stars ∧ b.lastUpdated ≤ a.lastUpdated)) ∧
    (∀ stars ts,
      ((rawRepos.filter keepRepo).filter
          (fun r => r.stargazers_count == stars && r.updated_at == ts)).map normalizeRepo
        = (filterAndRankRepos rawRepos).filter
            (fun n => n.stars == stars && n.lastUpdated == ts)) := by
  constructor
  · unfold filterAndRankRepos
    rw [List.pairwise_map]
    refine (List.sorted_mergeSort repoLE_trans repoLE_total
      (rawRepos.filter keepRepo)).imp ?_
    intro a b h
    simp only [normalizeRepo_stars, normalizeRepo_lastUpdated]
    unfold repoLE at h
    by_cases hab : a.stargazers_count = b.stargazers_count
    · rw [if_pos hab] at h
      exact Or.inr ⟨hab, of_decide_eq_true h⟩
    · rw [if_neg hab] at h
      exact Or.inl (of_decide_eq_true h)
  · intro stars ts
    have hkey : ∀ r : GitHubRepoRaw,
        (r.stargazers_count == stars && r.updated_at == ts) = true ↔
          r.stargazers_count = stars ∧ r.updated_at = ts := by
      intro r
      simp
    have hpair : ((rawRepos.filter keepRepo).filter
        (fun r => r.stargazers_count == stars && r.updated_at == ts)).Pairwise
          (fun a b => repoLE a b = true) := by
      refine List.pairwise_of_forall_mem_list ?_
      intro a ha b hb
      obtain ⟨ha1, ha2⟩ := (hkey a).mp (List.mem_filter.mp ha).2
      obtain ⟨hb1, hb2⟩ := (hkey b).mp (List.mem_filter.mp hb).2
      unfold repoLE
      rw [if_pos (ha1.trans hb1.symm), ha2, hb2]
      exact decide_eq_true le_rfl
    have hsub : List.Sublist
        ((rawRepos.filter keepRepo).filter
          (fun r => r.stargazers_count == stars && r.updated_at == ts))
        ((rawRepos.filter keepRepo).mergeSort repoLE) :=
      List.sublist_mergeSort repoLE_trans repoLE_total hpair
        (List.filter_sublist (rawRepos.filter keepRepo))
    have hsub2 : List.Sublist
        ((rawRepos.filter keepRepo).filter
          (fun r => r.stargazers_count == stars && r.updated_at == ts))
        (((rawRepos.filter keepRepo).mergeSort repoLE).filter
          (fun r => r.stargazers_count == stars && r.updated_at == ts)) := by
      have h := hsub.filter (fun r => r.stargazers_count == stars && r.updated_at == ts)
      rwa [List.filter_filter, List.filter_congr
        (fun a _ => Bool.and_self (a.stargazers_count == stars && a.updated_at == ts))] at h
    have hperm : (((rawRepos.filter keepRepo).mergeSort repoLE).filter
        (fun r => r.stargazers_count == stars && r.updated_at == ts)).Perm
          ((rawRepos.filter keepRepo).filter
            (fun r => r.stargazers_count == stars && r.updated_at == ts)) :=
      (List.mergeSort_perm (rawRepos.filter keepRepo) repoLE).filter _
    have heq := hsub2.eq_of_length hperm.length_eq.symm
    rw [heq]
    unfold filterAndRankRepos
    rw [List.filter_map]
    rfl

/-- C2: for every input list, the output of the Repository Ranker is exactly
one normalized record for each input record with `fork = false`,
`archived = false`, `size > 0` (as a multiset: a permutation of the
filtered, normalized input), and every output record comes from such a kept
input record — records failing the filter contribute nothing. -/
theorem C2_filter_exact (rawRepos : List GitHubRepoRaw) :
    (filterAndRankRepos rawRepos).Perm ((rawRepos.filter keepRepo).map normalizeRepo) ∧
    ∀ n ∈ filterAndRankRepos rawRepos, ∃ r ∈ rawRepos,
      r.fork = false ∧ r.archived = false ∧ 0 < r.size ∧ n = normalizeRepo r := by
  constructor
  · exact (List.mergeSort_perm (rawRepos.filter keepRepo) repoLE).map normalizeRepo
  · intro n hn
    unfold filterAndRankRepos at hn
    obtain ⟨r, hr, rfl⟩ := List.mem_map.mp hn
    rw [List.mem_mergeSort] at hr
    obtain ⟨hr2, hkeep⟩ := List.mem_filter.mp hr
    unfold keepRepo at hkeep
    simp only [Bool.and_eq_true, Bool.not_eq_true', bne_iff_ne, ne_eq] at hkeep
    exact ⟨r, hr2, hkeep.1.1, hkeep.1.2, Nat.pos_of_ne_zero hkeep.2, rfl⟩

/-- Splitting a deduplication across an append: the previous entries
deduplicated, followed by the deduplicated new entries that are not already
present. -/
theorem arrayFromSet_append {α : Type} [DecidableEq α] (A B : List α) :
    arrayFromSet (A ++ B)
      = arrayFromSet A ++ (arrayFromSet B).filter (fun x => !decide (x ∈ A)) := by
  show jsSetAux [] (A ++ B) = _
  rw [jsSetAux_append]
  refine congrArg (arrayFromSet A ++ ·) ?_
  rw [jsSetAux_congr (t := A) (fun x => by simp) B]
  exact jsSetAux_eq_filter B A

/-- Re-filtering after appending the replacement entry changes nothing. -/
theorem filter_ne_append_self (fp : List FeaturedProject) (p : FeaturedProject) :
    (fp.filter (fun q => q.name ≠ p.name) ++ [p]).filter (fun q => q.name ≠ p.name)
      = fp.filter (fun q => q.name ≠ p.name) := by
  rw [List.filter_append, List.filter_filter]
  simp

/-- C3: applying the same advisory item (any `Suggestion` or any
`HeuristicRecommendation`) to a ProfileIntent twice yields the same
ProfileIntent as applying it once. -/
theorem C3_apply_idempotent (s : ReadmeInputs) :
    (∀ sug : Suggestion,
      applySuggestion sug (applySuggestion sug s) = applySuggestion sug s) ∧
    (∀ rec : HeuristicRecommendation,
      applyHeuristicRecommendation rec (applyHeuristicRecommendation rec s)
        = applyHeuristicRecommendation rec s) := by
  constructor
  · intro sug
    rcases hproj : sug.data.bind (·.project) with _ | p <;>
      rcases hlang : sug.data.bind (·.languages) with _ | langs <;>
      simp only [applySuggestion, hproj, hlang] <;>
      first
      | rfl
      | rw [filter_ne_append_self, arrayFromSet_union_idem]
      | rw [arrayFromSet_union_idem]
      | rw [filter_ne_append_self]
  · intro rec
    rcases hsa : rec.suggestedAction with _ | a
    · simp only [applyHeuristicRecommendation, hsa]
    · rcases hv : a.value with _ | v
      · simp only [applyHeuristicRecommendation, hsa, hv]
      · simp only [applyHeuristicRecommendation, hsa, hv]
        by_cases c1 : a.target = ActionTarget.tone ∧ a.type = ActionType.change ∧ v.truthy = true
        · rw [if_pos c1, if_pos c1]
        · rw [if_neg c1, if_neg c1]
          by_cases c2 : a.target = ActionTarget.goal ∧ a.type = ActionType.change ∧ v.truthy = true
          · rw [if_pos c2, if_pos c2]
          · rw [if_neg c2, if_neg c2]
            by_cases c3 : a.target = ActionTarget.techStack ∧ a.type = ActionType.enable ∧ v.truthy = true
            · rw [if_pos c3, if_pos c3, arrayFromSet_union_idem]
            · rw [if_neg c3, if_neg c3]

/-- C9: applying a suggestion carrying a language-list payload unions the
payload into the technology list: prior entries (deduplicated, in order)
followed by the new entries of the payload in first-seen order, with no
duplicates in the result. -/
theorem C9_language_union (s : ReadmeInputs) (sug : Suggestion) (langs : List String)
    (h : sug.data.bind (·.languages) = some langs) :
    (applySuggestion sug s).techStack
      = arrayFromSet s.techStack
        ++ (arrayFromSet (langs.map ActionValue.str)).filter
            (fun v => !decide (v ∈ s.techStack)) ∧
    (applySuggestion sug s).techStack.Nodup := by
  rcases hproj : sug.data.bind (·.project) with _ | p <;>
    simp only [applySuggestion, h, hproj] <;>
    exact ⟨arrayFromSet_append s.techStack (langs.map ActionValue.str),
      nodup_jsSetAux [] (s.techStack ++ langs.map ActionValue.str)⟩

/-- Suggestion of the C9 scenario: a language payload `["Go", "Rust"]`. -/
def sugLangsGoRust : Suggestion :=
  { type := .section
    message := "Primary languages detected: Go, Rust"
    data := some { languages := some ["Go", "Rust"] } }

/-- Intent of the C9 scenario: `techStack = ["Go"]`. -/
def intentGo : ReadmeInputs :=
  { defaultInputs with techStack := [.str "Go"] }

/-- C9 witness: the concrete scenario — applying `["Go", "Rust"]` to
`techStack = ["Go"]` yields `["Go", "Rust"]`. -/
theorem C9_language_union_witness :
    sugLangsGoRust.data.bind (·.languages) = some ["Go", "Rust"] ∧
    ((applySuggestion sugLangsGoRust intentGo).techStack
      = arrayFromSet intentGo.techStack
        ++ (arrayFromSet ((["Go", "Rust"]).map ActionValue.str)).filter
            (fun v => !decide (v ∈ intentGo.techStack)) ∧
      (applySuggestion sugLangsGoRust intentGo).techStack.Nodup) ∧
    (applySuggestion sugLangsGoRust intentGo).techStack = [.str "Go", .str "Rust"] :=
  ⟨rfl, C9_language_union intentGo sugLangsGoRust ["Go", "Rust"] rfl, by decide⟩

/-- Recommendation with the suggested action `{enable, projects, true}` the
heuristics engine emits for three strong repositories. -/
def recEnableProjects : HeuristicRecommendation :=
  { recommendationType := .section
    message := "Consider enabling the Featured Projects section"
    explanation := "You have 3 repositories with 5+ stars. Showcasing these could strengthen your profile."
    suggestedAction := some { type := .enable, target := .projects, value := some (.bool true) } }

/-- Intent with the projects section disabled. -/
def intentNoProjects : ReadmeInputs :=
  { defaultInputs with sections := { defaultInputs.sections with projects := false } }

/-- C4 counterexample: applying the `{enable, projects, true}` suggested
action does NOT set the projects visibility flag — the resolver has no
branch for section targets and leaves the intent unchanged, so the flag
stays `false`. -/
theorem C4_counterexample :
    recEnableProjects.suggestedAction
      = some { type := ActionType.enable, target := ActionTarget.projects,
               value := some (ActionValue.bool true) } ∧
    intentNoProjects.sections.projects = false ∧
    (applyHeuristicRecommendation recEnableProjects intentNoProjects).sections.projects
      = false := by
  refine ⟨rfl, rfl, ?_⟩
  decide

/-- C4 (amended): the Apply/Merge Resolver never modifies any section
visibility flag; in particular a recommendation whose suggested action
targets the `projects` section (enable or disable) leaves the whole
ProfileIntent unchanged — it is only surfaced to the user. -/
theorem C4_enable_disable_section_noop :
    (∀ (rec : HeuristicRecommendation) (s : ReadmeInputs),
      (applyHeuristicRecommendation rec s).sections = s.sections) ∧
    (∀ (rec : HeuristicRecommendation) (s : ReadmeInputs) (a : SuggestedAction),
      rec.suggestedAction = some a → a.target = ActionTarget.projects →
      applyHeuristicRecommendation rec s = s) := by
  constructor
  · intro rec s
    rcases hsa : rec.suggestedAction with _ | a
    · simp only [applyHeuristicRecommendation, hsa]
    · rcases hv : a.value with _ | v
      · simp only [applyHeuristicRecommendation, hsa, hv]
      · simp only [applyHeuristicRecommendation, hsa, hv]
        by_cases c1 : a.target = ActionTarget.tone ∧ a.type = ActionType.change ∧ v.truthy = true
        · rw [if_pos c1]
        · rw [if_neg c1]
          by_cases c2 : a.target = ActionTarget.goal ∧ a.type = ActionType.change ∧ v.truthy = true
          · rw [if_pos c2]
          · rw [if_neg c2]
            by_cases c3 : a.target = ActionTarget.techStack ∧ a.type = ActionType.enable ∧ v.truthy = true
            · rw [if_pos c3]
            · rw [if_neg c3]
  · intro rec s a hsa htgt
    rcases hv : a.value with _ | v
    · simp only [applyHeuristicRecommendation, hsa, hv]
    · simp only [applyHeuristicRecommendation, hsa, hv]
      rw [if_neg (fun hc => by rw [htgt] at hc; exact absurd hc.1 (by simp)),
        if_neg (fun hc => by rw [htgt] at hc; exact absurd hc.1 (by simp)),
        if_neg (fun hc => by rw [htgt] at hc; exact absurd hc.1 (by simp))]

/-- C4 witness: applying the concrete `{enable, projects, true}`
recommendation to the default intent leaves it unchanged. -/
theorem C4_enable_disable_section_noop_witness :
    applyHeuristicRecommendation recEnableProjects defaultInputs = defaultInputs :=
  C4_enable_disable_section_noop.2 recEnableProjects defaultInputs
    { type := .enable, target := .projects, value := some (.bool true) } rfl rfl

/-- Raw repository fixture that passes the filter. -/
def rawKeep : GitHubRepoRaw :=
  { name := "k"
    description := none
    language := some "Go"
    stargazers_count := 2
    updated_at := "2024-01-01T00:00:00Z"
    fork := false
    archived := false
    size := 10 }

/-- Raw repository fixture that is a fork (dropped by the filter). -/
def rawFork : GitHubRepoRaw :=
  { name := "f"
    description := none
    language := none
    stargazers_count := 9
    updated_at := "2024-01-01T00:00:00Z"
    fork := true
    archived := false
    size := 10 }

/-- C2 witness: a concrete two-record input — the kept record appears
(normalized) in the output and comes from a record passing the filter. -/
theorem C2_filter_exact_witness :
    (filterAndRankRepos [rawKeep, rawFork]).Perm
      (([rawKeep, rawFork].filter keepRepo).map normalizeRepo) ∧
    normalizeRepo rawKeep ∈ filterAndRankRepos [rawKeep, rawFork] ∧
    ∃ r ∈ [rawKeep, rawFork], r.fork = false ∧ r.archived = false ∧
      0 < r.size ∧ normalizeRepo rawKeep = normalizeRepo r := by
  have hmem : normalizeRepo rawKeep ∈ filterAndRankRepos [rawKeep, rawFork] :=
    List.mem_map.mpr ⟨rawKeep, List.mem_mergeSort.mpr (by decide), rfl⟩
  exact ⟨(C2_filter_exact [rawKeep, rawFork]).1, hmem,
    (C2_filter_exact [rawKeep, rawFork]).2 (normalizeRepo rawKeep) hmem⟩

/-- Repository fixture whose `updated_at` is the epoch. -/
def repoEpoch : GitHubRepoNormalized :=
  { name := "r"
    description := ""
    language := "Go"
    stars := 3
    lastUpdated := "1970-01-01T00:00:00Z" }

/-- C5 counterexample: `generateSuggestions` is NOT a function of its
explicit inputs (repos, languages) alone — the `Date.now()` read changes
the output.  With the same repos and languages, a clock reading at the
epoch and one 360 days later produce different suggestion lists (the
recency warning appears), so two runs on the same inputs can differ. -/
theorem C5_counterexample :
    generateSuggestions [repoEpoch] [] 0
      ≠ generateSuggestions [repoEpoch] [] 31104000000 := by
  decide

/-- C5 (amended): each engine function is a deterministic function of its
inputs plus a single `Date.now()` snapshot taken once per invocation (a
hidden global read, not a passed-in parameter), and that snapshot
influences only the recency warning: the outputs of two invocations at
different clock readings agree once the recency warning is discarded. -/
theorem C5_clock_only_affects_recency_warning (repos : List GitHubRepoNormalized)
    (languages : List String) (now1 now2 : Int) :
    (generateSuggestions repos languages now1).filter
        (fun sug => sug.message ≠ "Your profile has no recently active repositories (last 6 months).")
      = (generateSuggestions repos languages now2).filter
        (fun sug => sug.message ≠ "Your profile has no recently active repositories (last 6 months).") := by
  have hB : ∀ now : Int,
      (if repos.length > 0 ∧ (repos.filter (isRecentRepo now)).length = 0 then
        [{ type := SuggestionType.warning
           message := "Your profile has no recently active repositories (last 6 months)." }]
      else ([] : List Suggestion)).filter
        (fun sug => sug.message ≠ "Your profile has no recently active repositories (last 6 months).")
        = [] := by
    intro now
    split
    · simp
    · rfl
  unfold generateSuggestions
  simp only [List.filter_append, hB]

/-- C10: on an empty ranked list (with the correspondingly empty language
set) the Suggestion Generator emits exactly the "no public repositories"
warning and nothing else; on a non-empty ranked list it instead emits (as
the first element) the one repository-feature suggestion naming the top 4
repositories by rank with those repositories as payload, and no other
suggestion carries a repository-list payload. -/
theorem C10_empty_warning_nonempty_feature (repos : List GitHubRepoNormalized)
    (languages : List String) (now : Int) :
    (repos = [] ∧ languages = [] →
      generateSuggestions repos languages now
        = [{ type := SuggestionType.warning
             message := "No public repositories found for this user." }]) ∧
    (repos ≠ [] →
      (generateSuggestions repos languages now).head?
        = some { type := SuggestionType.repo
                 message := "We recommend featuring these repositories: " ++
                   String.intercalate ", " ((repos.take TOP_REPOS_LIMIT).map (·.name))
                 data := some { repos := some (repos.take TOP_REPOS_LIMIT) } } ∧
      (generateSuggestions repos languages now).countP
          (fun sug => (sug.data.bind (·.repos)).isSome) = 1) := by
  constructor
  · rintro ⟨rfl, rfl⟩
    rfl
  · intro h
    constructor
    · unfold generateSuggestions
      rw [if_pos (List.length_pos.mpr h)]
      simp
    · unfold generateSuggestions
      rw [List.countP_append, List.countP_append, List.countP_append,
        if_pos (List.length_pos.mpr h)]
      have hz : ∀ l : List Suggestion,
          (∀ sug ∈ l, sug.data.bind (·.repos) = none) →
          l.countP (fun sug => (sug.data.bind (·.repos)).isSome) = 0 := by
        intro l hl
        refine List.countP_eq_zero.mpr (fun a ha => ?_)
        rw [hl a ha]
        simp
      rw [hz (if repos.length > 0 ∧ (repos.filter (isRecentRepo now)).length = 0 then
          [{ type := SuggestionType.warning
             message := "Your profile has no recently active repositories (last 6 months)." }]
        else []) (fun sug hs => by
          obtain rfl := List.mem_singleton.mp (mem_of_mem_ite_nil hs)
          rfl)]
      rw [hz (if languages.length > 0 then
          [{ type := SuggestionType.section
             message := "Primary languages detected: " ++ String.intercalate ", " languages
             data := some { languages := some languages } }]
        else []) (fun sug hs => by
          obtain rfl := List.mem_singleton.mp (mem_of_mem_ite_nil hs)
          rfl)]
      rw [hz ((repos.take TOP_REPOS_LIMIT).map (fun repo =>
          let impact : String :=
            if repo.description = "" then "A project on GitHub" else repo.description
          { type := SuggestionType.repo
            message := "Add \"" ++ repo.name ++ "\" to featured projects"
            data := some { project := some ⟨repo.name, impact⟩ } }))
        (fun sug hs => by
          obtain ⟨repo, -, rfl⟩ := List.mem_map.mp hs
          rfl)]
      simp

/-- C10 witness: the concrete empty and non-empty scenarios. -/
theorem C10_empty_warning_nonempty_feature_witness :
    (([] : List GitHubRepoNormalized) = [] ∧ ([] : List String) = []) ∧
    generateSuggestions [] [] 0
      = [{ type := SuggestionType.warning
           message := "No public repositories found for this user." }] ∧
    ([repoEpoch] ≠ ([] : List GitHubRepoNormalized)) ∧
    ((generateSuggestions [repoEpoch] [] 0).head?
        = some { type := SuggestionType.repo
                 message := "We recommend featuring these repositories: " ++
                   String.intercalate ", " (([repoEpoch].take TOP_REPOS_LIMIT).map (·.name))
                 data := some { repos := some ([repoEpoch].take TOP_REPOS_LIMIT) } } ∧
      (generateSuggestions [repoEpoch] [] 0).countP
          (fun sug => (sug.data.bind (·.repos)).isSome) = 1) :=
  ⟨⟨rfl, rfl⟩,
    (C10_empty_warning_nonempty_feature [] [] 0).1 ⟨rfl, rfl⟩,
    by decide,
    (C10_empty_warning_nonempty_feature [repoEpoch] [] 0).2 (by decide)⟩

/-- Section-rule recommendations always carry a non-empty explanation. -/
theorem explanation_ne_section (u : ReadmeInputs) (gd : Option GithubSignals) :
    ∀ rec ∈ generateSectionRecommendations u gd, rec.explanation ≠ "" := by
  intro rec h
  rcases gd with _ | g
  · simp only [generateSectionRecommendations] at h
    rcases List.mem_append.mp h with h | h <;>
      · obtain rfl := List.mem_singleton.mp (mem_of_mem_ite_nil h)
        decide
  · simp only [generateSectionRecommendations] at h
    rcases List.mem_append.mp h with h | h
    · rcases List.mem_append.mp h with h | h
      · rcases List.mem_append.mp h with h | h
        · obtain rfl := List.mem_singleton.mp (mem_of_mem_ite_nil h)
          decide
        · obtain rfl := List.mem_singleton.mp (mem_of_mem_ite_nil h)
          exact append_ne_empty_of_left _ _ (by decide)
      · obtain rfl := List.mem_singleton.mp (mem_of_mem_ite_nil h)
        decide
    · obtain rfl := List.mem_singleton.mp (mem_of_mem_ite_nil h)
      exact append_ne_empty_of_left _ _ (by decide)

/-- Tone-rule recommendations always carry a non-empty explanation. -/
theorem explanation_ne_tone (u : ReadmeInputs) (gd : Option GithubSignals) :
    ∀ rec ∈ generateToneRecommendations u gd, rec.explanation ≠ "" := by
  intro rec h
  simp only [generateToneRecommendations] at h
  rcases List.mem_append.mp h with h | h
  · rcases List.mem_append.mp h with h | h
    · rcases List.mem_append.mp h with h | h
      · rcases List.mem_append.mp h with h | h
        · obtain rfl := List.mem_singleton.mp (mem_of_mem_ite_nil h)
          decide
        · rcases gd with _ | g
          · cases h
          · obtain rfl := List.mem_singleton.mp (mem_of_mem_ite_nil h)
            exact append_ne_empty_of_left _ _ (by decide)
      · obtain rfl := List.mem_singleton.mp (mem_of_mem_ite_nil h)
        decide
    · obtain rfl := List.mem_singleton.mp (mem_of_mem_ite_nil h)
      decide
  · obtain rfl := List.mem_singleton.mp (mem_of_mem_ite_nil h)
    decide

/-- Warning recommendations always carry a non-empty explanation. -/
theorem explanation_ne_warnings (u : ReadmeInputs) (gd : Option GithubSignals) :
    ∀ rec ∈ generateWarnings u gd, rec.explanation ≠ "" := by
  intro rec h
  simp only [generateWarnings] at h
  rcases List.mem_append.mp h with h | h
  · rcases List.mem_append.mp h with h | h
    · rcases gd with _ | g
      · cases h
      · rcases List.mem_append.mp h with h | h
        · rcases List.mem_append.mp h with h | h
          · rcases List.mem_append.mp h with h | h <;>
              · obtain rfl := List.mem_singleton.mp (mem_of_mem_ite_nil h)
                decide
          · obtain rfl := List.mem_singleton.mp (mem_of_mem_ite_nil h)
            decide
        · obtain rfl := List.mem_singleton.mp (mem_of_mem_ite_nil h)
          decide
    · obtain rfl := List.mem_singleton.mp (mem_of_mem_ite_nil h)
      decide
  · obtain rfl := List.mem_singleton.mp (mem_of_mem_ite_nil h)
    decide

/-- C6: every recommendation the Heuristic Recommendation Engine emits, on
any input (with or without fact signals), has a non-empty explanation
string. -/
theorem C6_explanation_nonempty (input : HeuristicsInput) :
    ∀ rec ∈ generateHeuristicRecommendations input, rec.explanation ≠ "" := by
  intro rec h
  unfold generateHeuristicRecommendations at h
  rcases List.mem_append.mp h with h | h
  · rcases List.mem_append.mp h with h | h
    · exact explanation_ne_section input.userInputs input.githubData rec h
    · exact explanation_ne_tone input.userInputs input.githubData rec h
  · exact explanation_ne_warnings input.userInputs input.githubData rec h

/-- Intent fixture with an empty role (and the placeholder name). -/
def intentBare : ReadmeInputs := { defaultInputs with role := "" }

/-- C6 witness: a concrete emitted recommendation (empty-role intent, no
fact signals) has a non-empty explanation. -/
theorem C6_explanation_nonempty_witness :
    ({ recommendationType := RecommendationType.warning
       message := "Remember to add your real name"
       explanation := "A personalized name makes your profile more authentic and memorable." }
        : HeuristicRecommendation)
      ∈ generateHeuristicRecommendations ⟨intentBare, none⟩ ∧
    ({ recommendationType := RecommendationType.warning
       message := "Remember to add your real name"
       explanation := "A personalized name makes your profile more authentic and memorable." }
        : HeuristicRecommendation).explanation ≠ "" :=
  ⟨by decide, C6_explanation_nonempty ⟨intentBare, none⟩ _ (by decide)⟩

/-- Suggested actions of tone-rule recommendations are always a `change` on the
`tone` target carrying a string value. -/
theorem tone_actions (u : ReadmeInputs) (gd : Option GithubSignals) :
    ∀ rec ∈ generateToneRecommendations u gd, ∃ v : String,
      rec.suggestedAction
        = some { type := ActionType.change, target := ActionTarget.tone,
                 value := some (ActionValue.str v) } := by
  intro rec h
  simp only [generateToneRecommendations] at h
  rcases List.mem_append.mp h with h | h
  · rcases List.mem_append.mp h with h | h
    · rcases List.mem_append.mp h with h | h
      · rcases List.mem_append.mp h with h | h
        · obtain rfl := List.mem_singleton.mp (mem_of_mem_ite_nil h)
          exact ⟨"friendly", rfl⟩
        · rcases gd with _ | g
          · cases h
          · obtain rfl := List.mem_singleton.mp (mem_of_mem_ite_nil h)
            exact ⟨"confident", rfl⟩
      · obtain rfl := List.mem_singleton.mp (mem_of_mem_ite_nil h)
        exact ⟨"friendly", rfl⟩
    · obtain rfl := List.mem_singleton.mp (mem_of_mem_ite_nil h)
      exact ⟨"founder", rfl⟩
  · obtain rfl := List.mem_singleton.mp (mem_of_mem_ite_nil h)
    exact ⟨"confident", rfl⟩

/-- Warning recommendations never carry a suggested action. -/
theorem warnings_no_action (u : ReadmeInputs) (gd : Option GithubSignals) :
    ∀ rec ∈ generateWarnings u gd, rec.suggestedAction = none := by
  intro rec h
  simp only [generateWarnings] at h
  rcases List.mem_append.mp h with h | h
  · rcases List.mem_append.mp h with h | h
    · rcases gd with _ | g
      · cases h
      · rcases List.mem_append.mp h with h | h
        · rcases List.mem_append.mp h with h | h
          · rcases List.mem_append.mp h with h | h <;>
              · obtain rfl := List.mem_singleton.mp (mem_of_mem_ite_nil h)
                rfl
          · obtain rfl := List.mem_singleton.mp (mem_of_mem_ite_nil h)
            rfl
        · obtain rfl := List.mem_singleton.mp (mem_of_mem_ite_nil h)
          rfl
    · obtain rfl := List.mem_singleton.mp (mem_of_mem_ite_nil h)
      rfl
  · obtain rfl := List.mem_singleton.mp (mem_of_mem_ite_nil h)
    rfl

/-- Recommendations matching a boolean predicate count zero when the
predicate fails on every element. -/
theorem countP_zero_of_ne {p : HeuristicRecommendation → Bool}
    (l : List HeuristicRecommendation) (h : ∀ rec ∈ l, p rec = false) :
    l.countP p = 0 :=
  List.countP_eq_zero.mpr (fun a ha => by rw [h a ha]; simp)

/-- C7: with fact signals present, at least 3 top-ranked repositories of
popularity count ≥ `STRONG_REPO_STAR_THRESHOLD` (= 5), and the projects
section disabled, the engine emits exactly one recommendation whose
suggested action is `{enable, projects, true}`. -/
theorem C7_enable_projects_exactly_once (u : ReadmeInputs) (g : GithubSignals)
    (hstrong : 3 ≤ (g.topRepos.filter
      (fun r => STRONG_REPO_STAR_THRESHOLD ≤ r.stars)).length)
    (hproj : u.sections.projects = false) :
    (generateHeuristicRecommendations ⟨u, some g⟩).countP
        (fun rec => decide (rec.suggestedAction
          = some { type := ActionType.enable, target := ActionTarget.projects,
                   value := some (ActionValue.bool true) })) = 1 := by
  unfold generateHeuristicRecommendations
  rw [List.countP_append, List.countP_append]
  have htone : (generateToneRecommendations u (some g)).countP
      (fun rec => decide (rec.suggestedAction
        = some { type := ActionType.enable, target := ActionTarget.projects,
                 value := some (ActionValue.bool true) })) = 0 := by
    refine countP_zero_of_ne _ (fun rec hr => ?_)
    obtain ⟨v, hv⟩ := tone_actions u (some g) rec hr
    simp [hv]
  have hwarn : (generateWarnings u (some g)).countP
      (fun rec => decide (rec.suggestedAction
        = some { type := ActionType.enable, target := ActionTarget.projects,
                 value := some (ActionValue.bool true) })) = 0 := by
    refine countP_zero_of_ne _ (fun rec hr => ?_)
    rw [warnings_no_action u (some g) rec hr]
    simp
  rw [htone, hwarn]
  simp only [generateSectionRecommendations, List.countP_append, hproj]
  rw [if_neg (by simp), if_pos ⟨hstrong, by simp⟩]
  simp [apply_ite (List.countP (fun rec : HeuristicRecommendation =>
    decide (rec.suggestedAction
      = some { type := ActionType.enable, target := ActionTarget.projects,
               value := some (ActionValue.bool true) })))]

/-- Fact signals of the C7 scenario: 4 top repositories, 3 of them with
popularity count 5 or more. -/
def signalsStrong : GithubSignals :=
  { repoCount := 4
    hasRecentActivity := true
    primaryLanguages := ["Go"]
    topRepos :=
      [ { name := "a", description := "", language := "Go", stars := 10,
          lastUpdated := "2024-01-01T00:00:00Z" }
      , { name := "b", description := "", language := "Go", stars := 7,
          lastUpdated := "2024-01-01T00:00:00Z" }
      , { name := "c", description := "", language := "Rust", stars := 5,
          lastUpdated := "2024-01-01T00:00:00Z" }
      , { name := "d", description := "", language := "Rust", stars := 1,
          lastUpdated := "2024-01-01T00:00:00Z" } ]
    totalStars := 23
    forkRatio := 0 }

/-- Intent fixture with empty role and the projects section disabled. -/
def intentBareNoProjects : ReadmeInputs :=
  { intentBare with sections := { intentBare.sections with projects := false } }

/-- C7 witness: the concrete scenario — 3 of 4 top repositories at
popularity ≥ 5 and projects disabled yields exactly one
`{enable, projects, true}` recommendation. -/
theorem C7_enable_projects_exactly_once_witness :
    3 ≤ (signalsStrong.topRepos.filter
        (fun r => STRONG_REPO_STAR_THRESHOLD ≤ r.stars)).length ∧
    intentBareNoProjects.sections.projects = false ∧
    (generateHeuristicRecommendations ⟨intentBareNoProjects, some signalsStrong⟩).countP
        (fun rec => decide (rec.suggestedAction
          = some { type := ActionType.enable, target := ActionTarget.projects,
                   value := some (ActionValue.bool true) })) = 1 :=
  ⟨by decide, rfl,
    C7_enable_projects_exactly_once intentBareNoProjects signalsStrong (by decide) rfl⟩

/-- The rules that fire without fact signals (the intent-only rule set),
identified by their messages: two section rules for empty content, four
career-stage/goal tone rules, and the two profile-completeness warnings. -/
def factFreeMessages : List String :=
  [ "Add featured projects or hide the section"
  , "Add technologies to your tech stack"
  , "Consider a friendly, learning-focused tone"
  , "Consider a friendlier tone for open-source"
  , "Consider using the founder tone"
  , "Consider a confident tone for job searching"
  , "Your primary role is not specified"
  , "Remember to add your real name" ]

/-- The missing-role warning recommendation. -/
def missingRoleWarning : HeuristicRecommendation :=
  { recommendationType := .warning
    message := "Your primary role is not specified"
    explanation := "Adding a clear role helps visitors quickly understand what you do." }

/-- C8: with fact signals absent (`githubData = none`) the engine still
returns a result (the embedding is total by construction); every emitted
recommendation is one of the intent-only rules (no fact-dependent rule
fires), and the missing-role warning is present whenever the role text is
empty or whitespace-only. -/
theorem C8_no_facts_total_and_role_warning (u : ReadmeInputs) :
    (∀ rec ∈ generateHeuristicRecommendations ⟨u, none⟩,
      rec.message ∈ factFreeMessages) ∧
    (u.role = "" ∨ u.role.trim = "" →
      missingRoleWarning ∈ generateHeuristicRecommendations ⟨u, none⟩) := by
  constructor
  · intro rec h
    unfold generateHeuristicRecommendations at h
    rcases List.mem_append.mp h with h | h
    · rcases List.mem_append.mp h with h | h
      · simp only [generateSectionRecommendations] at h
        rcases List.mem_append.mp h with h | h <;>
          · obtain rfl := List.mem_singleton.mp (mem_of_mem_ite_nil h)
            decide
      · simp only [generateToneRecommendations] at h
        rcases List.mem_append.mp h with h | h
        · rcases List.mem_append.mp h with h | h
          · rcases List.mem_append.mp h with h | h
            · rcases List.mem_append.mp h with h | h
              · obtain rfl := List.mem_singleton.mp (mem_of_mem_ite_nil h)
                decide
              · cases h
            · obtain rfl := List.mem_singleton.mp (mem_of_mem_ite_nil h)
              decide
          · obtain rfl := List.mem_singleton.mp (mem_of_mem_ite_nil h)
            decide
        · obtain rfl := List.mem_singleton.mp (mem_of_mem_ite_nil h)
          decide
    · simp only [generateWarnings] at h
      rcases List.mem_append.mp h with h | h
      · rcases List.mem_append.mp h with h | h
        · cases h
        · obtain rfl := List.mem_singleton.mp (mem_of_mem_ite_nil h)
          decide
      · obtain rfl := List.mem_singleton.mp (mem_of_mem_ite_nil h)
        decide
  · intro hrole
    unfold generateHeuristicRecommendations generateWarnings
    refine List.mem_append_right _ ?_
    refine List.mem_append_left _ ?_
    refine List.mem_append_right _ ?_
    rw [if_pos hrole]
    exact List.mem_cons_self _ _

/-- C8 witness: the concrete empty-role intent without fact signals gets
the missing-role warning, and the message of a concrete emitted recommendation
is one of the intent-only messages. -/
theorem C8_no_facts_total_and_role_warning_witness :
    (missingRoleWarning ∈ generateHeuristicRecommendations ⟨intentBare, none⟩ ∧
      missingRoleWarning.message ∈ factFreeMessages) ∧
    ((intentBare.role = "" ∨ intentBare.role.trim = "") ∧
      missingRoleWarning ∈ generateHeuristicRecommendations ⟨intentBare, none⟩) :=
  ⟨⟨by decide, (C8_no_facts_total_and_role_warning intentBare).1 missingRoleWarning (by decide)⟩,
    ⟨Or.inl rfl, (C8_no_facts_total_and_role_warning intentBare).2 (Or.inl rfl)⟩⟩

end ReadmeGen
